import Mathlib

/-!
Verification of the formulation-alarms ETL pipeline.

This file embeds the core of the repository (config/config.py,
src/extract/file_reader.py, src/transform/log_parser.py, src/load/database.py)
as executable Lean definitions and proves properties about them.

Modelling conventions:
* a Python string is a `List Char` (`Str`);
* the two regular expressions `LogParser.PATTERN_FULL` and `LogParser.PATTERN_ACK`
  are concrete patterns whose greedy sub-matches are deterministic (each greedy
  piece is followed by a piece that can never consume a character the greedy
  piece gave back), so they are embedded as direct character-level matchers;
* `re` character classes are modelled over their ASCII portion (`\d` as ASCII
  digits, `\s` as ASCII whitespace); no claim depends on non-ASCII characters;
* `pd.to_datetime(_, format="...")` is modelled by `parseTs`, which maps a
  timestamp string to the number of microseconds on a proleptic Gregorian
  timeline (so differences and the order of `datetime` values are faithful),
  or `none` when CPython/pandas `strptime` would raise (wrong shape, field out
  of range, more than six fractional digits);
* a `pandas` DataFrame of parsed rows is a `List AlarmRecord`; an absent
  (`NaT`) datetime is `none`.
-/

abbrev Str := List Char

def str (s : String) : Str :=
  s.toList

/-- ASCII part of Python regex `\s` / `str.strip` whitespace. -/
def pyIsSpace (c : Char) : Bool :=
  (c == ' ') || (c == '\t') || (c == '\n') || (c == '\r') || (c == '\x0b') || (c == '\x0c')

/-- Bool prefix test: `leadsWith p s` iff `p` is a prefix of `s`. -/
def leadsWith : Str → Str → Bool
  | [], _ => true
  | _ :: _, [] => false
  | p :: ps, s :: ss => (p == s) && leadsWith ps ss

/-- Python substring containment `needle in hay`. -/
def pyIn (needle : Str) : Str → Bool
  | [] => leadsWith needle []
  | c :: rest => leadsWith needle (c :: rest) || pyIn needle rest

/-- Python `str.strip()` (ASCII whitespace portion). -/
def pyStrip (s : Str) : Str :=
  ((s.dropWhile pyIsSpace).reverse.dropWhile pyIsSpace).reverse

/-- Match exactly `n` ASCII digits (regex `\d{n}`); returns (digits, rest). -/
def digitsExact (n : Nat) (s : Str) : Option (Str × Str) :=
  let t := s.take n
  if (t.length == n) && t.all Char.isDigit then some (t, s.drop n) else none

/-- Match one or more ASCII digits, greedily (regex `\d+`); returns (digits, rest). -/
def digits1 (s : Str) : Option (Str × Str) :=
  let t := s.takeWhile Char.isDigit
  if t.isEmpty then none else some (t, s.dropWhile Char.isDigit)

/-- Match one or more whitespace characters, greedily (regex `\s+`). -/
def ws1 (s : Str) : Option (Str × Str) :=
  let t := s.takeWhile pyIsSpace
  if t.isEmpty then none else some (t, s.dropWhile pyIsSpace)

/-- Match a literal string (regex literal text); returns the rest. -/
def litM (l s : Str) : Option Str :=
  if leadsWith l s then some (s.drop l.length) else none

namespace LogParser

/-- The timestamp group `(\d{4}-\d{2}-\d{2}\s+\d{2}:\d{2}:\d{2},\d+)` shared by
`PATTERN_FULL` and `PATTERN_ACK` (src/transform/log_parser.py lines 18-19).
Returns (captured text, rest of the line). -/
def matchTimestamp (s : Str) : Option (Str × Str) :=
  match digitsExact 4 s with
  | none => none
  | some (y, r1) =>
  match litM [ '-' ] r1 with
  | none => none
  | some r2 =>
  match digitsExact 2 r2 with
  | none => none
  | some (mo, r3) =>
  match litM [ '-' ] r3 with
  | none => none
  | some r4 =>
  match digitsExact 2 r4 with
  | none => none
  | some (d, r5) =>
  match ws1 r5 with
  | none => none
  | some (w, r6) =>
  match digitsExact 2 r6 with
  | none => none
  | some (hh, r7) =>
  match litM [ ':' ] r7 with
  | none => none
  | some r8 =>
  match digitsExact 2 r8 with
  | none => none
  | some (mi, r9) =>
  match litM [ ':' ] r9 with
  | none => none
  | some r10 =>
  match digitsExact 2 r10 with
  | none => none
  | some (ss, r11) =>
  match litM [ ',' ] r11 with
  | none => none
  | some r12 =>
  match digits1 r12 with
  | none => none
  | some (fr, r13) =>
    some (y ++ [ '-' ] ++ mo ++ [ '-' ] ++ d ++ w ++ hh ++ [ ':' ] ++ mi ++
            [ ':' ] ++ ss ++ [ ',' ] ++ fr, r13)

/-- The part both patterns share:
`TIMESTAMP\s+\[([^\]]+)\]\s+(\S+)` anchored at the start of the line
(`re.match`). Returns (timestamp, device, alarm token, rest after the token). -/
def matchCommon (s : Str) : Option (Str × Str × Str × Str) :=
  match matchTimestamp s with
  | none => none
  | some (ts, r0) =>
  match ws1 r0 with
  | none => none
  | some (_, r1) =>
  match litM [ '[' ] r1 with
  | none => none
  | some r2 =>
    let dev := r2.takeWhile (fun c => !(c == ']'))
    if dev.isEmpty then none else
    match litM [ ']' ] (r2.dropWhile (fun c => !(c == ']'))) with
    | none => none
    | some r3 =>
    match ws1 r3 with
    | none => none
    | some (_, r4) =>
      let tok := r4.takeWhile (fun c => !(pyIsSpace c))
      if tok.isEmpty then none else
      some (ts, dev, tok, r4.dropWhile (fun c => !(pyIsSpace c)))

/-- `PATTERN_ACK`: after the common part, `\s+ALARM\s+is\s+acknowledged.*`.
The trailing `.*` always succeeds, so the rest of the line is ignored. -/
def matchAck (s : Str) : Option (Str × Str × Str) :=
  match matchCommon s with
  | none => none
  | some (ts, dev, tok, r0) =>
  match ws1 r0 with
  | none => none
  | some (_, r1) =>
  match litM (str (r"ALARM")) r1 with
  | none => none
  | some r2 =>
  match ws1 r2 with
  | none => none
  | some (_, r3) =>
  match litM (str (r"is")) r3 with
  | none => none
  | some r4 =>
  match ws1 r4 with
  | none => none
  | some (_, r5) =>
  match litM (str (r"acknowledged")) r5 with
  | none => none
  | some _ => some (ts, dev, tok)

/-- `PATTERN_FULL`: after the common part, `\s+.*`. -/
def matchFull (s : Str) : Option (Str × Str × Str) :=
  match matchCommon s with
  | none => none
  | some (ts, dev, tok, r0) =>
  match ws1 r0 with
  | none => none
  | some _ => some (ts, dev, tok)

def digitsToNat (l : Str) : Nat :=
  l.foldl (fun acc c => acc * 10 + (c.toNat - 48)) 0

def isLeap (y : Nat) : Bool :=
  (y % 4 == 0) && (!(y % 100 == 0) || (y % 400 == 0))

def daysInMonth (y m : Nat) : Nat :=
  if m == 2 then (if isLeap y then 29 else 28)
  else if (m == 4) || (m == 6) || (m == 9) || (m == 11) then 30
  else 31

def daysBeforeMonth (y m : Nat) : Nat :=
  (match m with
   | 1 => 0 | 2 => 31 | 3 => 59 | 4 => 90 | 5 => 120 | 6 => 151
   | 7 => 181 | 8 => 212 | 9 => 243 | 10 => 273 | 11 => 304 | _ => 334) +
  (if (2 < m) && isLeap y then 1 else 0)

/-- Days of the proleptic Gregorian calendar strictly before year `y`, counted
from year 1. -/
def daysBeforeYear (y : Nat) : Nat :=
  (y - 1) * 365 + (y - 1) / 4 - (y - 1) / 100 + (y - 1) / 400

/-- Microseconds timeline position of a (validated) calendar date-time. -/
def toMicros (y mo d hh mi ss us : Nat) : Nat :=
  ((((daysBeforeYear y + daysBeforeMonth y mo + (d - 1)) * 24 + hh) * 60 + mi) * 60 + ss)
    * 1000000 + us

/-- `pd.to_datetime(t, format="%Y-%m-%d %H:%M:%S,%f")` (log_parser.py line 101):
`some` microsecond position on success, `none` when strptime raises.
`%f` accepts one to six fractional digits, padded on the right to microseconds;
a literal space in the format matches `\s+`; all fields are range-checked. -/
def parseTs (t : Str) : Option Nat :=
  match matchTimestamp t with
  | none => none
  | some (_, rest) =>
  if !rest.isEmpty then none else
  match digitsExact 4 t with
  | none => none
  | some (ys, r1) =>
  match digitsExact 2 (r1.drop 1) with
  | none => none
  | some (mos, r3) =>
  match digitsExact 2 (r3.drop 1) with
  | none => none
  | some (ds, r5) =>
  match ws1 r5 with
  | none => none
  | some (_, r6) =>
  match digitsExact 2 r6 with
  | none => none
  | some (hhs, r7) =>
  match digitsExact 2 (r7.drop 1) with
  | none => none
  | some (mis, r9) =>
  match digitsExact 2 (r9.drop 1) with
  | none => none
  | some (sss, r11) =>
  match digits1 (r11.drop 1) with
  | none => none
  | some (fr, _) =>
    let y := digitsToNat ys
    let mo := digitsToNat mos
    let d := digitsToNat ds
    let hh := digitsToNat hhs
    let mi := digitsToNat mis
    let ss := digitsToNat sss
    if (1 ≤ mo) && (mo ≤ 12) && (1 ≤ d) && (d ≤ daysInMonth y mo) &&
       (hh ≤ 23) && (mi ≤ 59) && (ss ≤ 59) && (fr.length ≤ 6) then
      some (toMicros y mo d hh mi ss (digitsToNat fr * 10 ^ (6 - fr.length)))
    else none

/-- The canonical parsed record (dict built by `LogParser._create_record`). -/
structure AlarmRecord where
  arquivo_origem : Str
  timestamp : Str
  datetime : Option Nat
  pc_id : Str
  alarm : Str
  type : Str
  linha_original : Str
deriving DecidableEq

/-- `LogParser._create_record` (log_parser.py lines 83-114). -/
def create_record (source_file timestamp pc_id alarm alarm_type original_line : Str) :
    AlarmRecord :=
  { arquivo_origem := source_file
    timestamp := timestamp
    datetime := parseTs timestamp
    pc_id := pc_id
    alarm := pyStrip alarm
    type := alarm_type
    linha_original := original_line }

/-- `TRANSFORM_CONFIG['filters']` (config/config.py line 31). -/
def filters : List Str :=
  [str (r"CFN"), str (r"OK"), str (r"acknowledged")]

/-- `LogParser.determine_type` (log_parser.py lines 28-45). -/
def determine_type (line : Str) : Str :=
  if pyIn (str (r"ALARM is acknowledged")) line then str (r"ACK")
  else if pyIn (str (r"CFN")) line then str (r"CFN")
  else if pyIn (str (r"OK")) line then str (r"OK")
  else str (r"N/A")

/-- The pre-filter `any(filter_term in line for filter_term in self.filters)`
(log_parser.py line 59). -/
def anyFilterHit (line : Str) : Bool :=
  filters.any (fun t => pyIn t line)

/-- `LogParser.parse_line` (log_parser.py lines 47-81). -/
def parse_line (line : Str) (source_file : Str) : Option AlarmRecord :=
  if anyFilterHit line then
    let line_stripped := pyStrip line
    let alarm_type := determine_type line_stripped
    match matchAck line_stripped with
    | some (ts, pc, al) =>
        some (create_record source_file ts pc al (str (r"ACK")) line_stripped)
    | none =>
        match matchFull line_stripped with
        | some (ts, pc, al) =>
            some (create_record source_file ts pc al alarm_type line_stripped)
        | none => none
  else none

/-- `LogParser.parse_file` (log_parser.py lines 116-141): the rows of the
per-file DataFrame, in line order. -/
def parse_file (lines : List Str) (source_file : Str) : List AlarmRecord :=
  lines.filterMap (fun l => parse_line l source_file)

end LogParser

/-- Python string comparison `a < b` (code-point lexicographic). -/
def strLtB : Str → Str → Bool
  | [], [] => false
  | [], _ :: _ => true
  | _ :: _, [] => false
  | a :: as, b :: bs => if a < b then true else if b < a then false else strLtB as bs

/-- Python string comparison `a <= b`, i.e. not `b < a`. -/
def strLeB (a b : Str) : Bool :=
  !(strLtB b a)

/-- `FileInfo` dataclass (src/extract/file_reader.py lines 19-29). -/
structure FileInfo where
  filename : Str
  filepath : Str
  lines : List Str
  encoding : Str
  line_count : Nat

namespace LogParser

/-- `LogParser.parse_multiple_files` (log_parser.py lines 143-176).
The final `df.sort_values('datetime')` uses the pandas default
`kind='quicksort'` (numpy introsort), whose order on ties is decided by the
installed numpy version, not by this repository; it is therefore taken as a
parameter `sortAlg` and constrained only where a claim pins it down. -/
def parse_multiple_files (sortAlg : List AlarmRecord → List AlarmRecord)
    (file_infos : List FileInfo) : List AlarmRecord :=
  let dataframes :=
    (file_infos.map (fun fi => parse_file fi.lines fi.filename)).filter
      (fun df => !df.isEmpty)
  if dataframes.isEmpty then [] else sortAlg dataframes.flatten

/-- The dict returned by `LogParser.get_statistics` (log_parser.py lines
178-204): a Python dict with optional keys, `none` meaning "key absent".
`records_by_type` / `records_by_file` model `value_counts().to_dict()` as a
lookup list (one entry per distinct value with its count; dict iteration
order is not modelled). -/
structure StatsDict where
  total_files : Option Nat := none
  total_records : Option Nat := none
  unique_alarms : Option Nat := none
  unique_pc_ids : Option Nat := none
  records_by_type : Option (List (Str × Nat)) := none
  records_by_file : Option (List (Str × Nat)) := none
  period_start : Option Nat := none
  period_end : Option Nat := none
  period_days : Option Nat := none
deriving DecidableEq

/-- `value_counts().to_dict()`: each distinct value with its number of
occurrences. -/
def valueCounts (xs : List Str) : List (Str × Nat) :=
  xs.dedup.map (fun v => (v, xs.count v))

/-- `LogParser.get_statistics` (log_parser.py lines 178-204). An empty
DataFrame yields the empty dict; otherwise counts are filled in, and the
period fields only when at least one row has a parsed datetime. -/
def get_statistics (df : List AlarmRecord) : StatsDict :=
  if df.isEmpty then {} else
  let base : StatsDict :=
    { total_records := some df.length
      unique_alarms := some (df.map (fun rec => rec.alarm)).dedup.length
      unique_pc_ids := some (df.map (fun rec => rec.pc_id)).dedup.length
      records_by_type := some (valueCounts (df.map (fun rec => rec.type)))
      records_by_file := some (valueCounts (df.map (fun rec => rec.arquivo_origem))) }
  let times := df.filterMap (fun rec => rec.datetime)
  match times.min?, times.max? with
  | some lo, some hi =>
      { base with
          period_start := some lo
          period_end := some hi
          period_days := some ((hi - lo) / 86400000000) }
  | _, _ => base

/-- `NaT`-last comparison on parsed datetimes: pandas sorts rows with an
absent datetime after every row with one (`na_position='last'`). -/
def dtLeB : Option Nat → Option Nat → Bool
  | _, none => true
  | none, some _ => false
  | some a, some b => a ≤ b

/-- The lexicographic `(pc_id, alarm, datetime)` key comparison used by
`df.sort_values(['pc_id', 'alarm', 'datetime'])` (log_parser.py lines
220-222): strings code-point ascending, datetime ascending with `NaT` last. -/
def leKey (a b : AlarmRecord) : Bool :=
  if strLtB a.pc_id b.pc_id then true
  else if strLtB b.pc_id a.pc_id then false
  else if strLtB a.alarm b.alarm then true
  else if strLtB b.alarm a.alarm then false
  else dtLeB a.datetime b.datetime

/-- `LogParser.group_alarm_sequences` (log_parser.py lines 206-226).
A multi-column `sort_values` in pandas is performed with `np.lexsort`, a
stable sort by the lexicographic key; `List.insertionSort` is the stable sort
by that key. -/
def group_alarm_sequences (df : List AlarmRecord) : List AlarmRecord :=
  if df.isEmpty then df
  else List.insertionSort (fun a b => leKey a b = true) df

end LogParser

namespace FileReader

/-- A file on disk, as the reader sees it: `decode e` is the line list
obtained by reading the file with encoding `e` (`f.readlines()`), or `none`
when that `open(...).readlines()` raises (the code catches every exception
and tries the next encoding). -/
structure SrcFile where
  filename : Str
  filepath : Str
  decode : Str → Option (List Str)

/-- `EXTRACT_CONFIG['encodings_to_try']` (config/config.py line 25). -/
def encodings_to_try : List Str :=
  [str (r"utf-8"), str (r"latin-1"), str (r"iso-8859-1"), str (r"cp1252"),
   str (r"windows-1252"), str (r"cp850")]

/-- `EXTRACT_CONFIG['file_extension']` (config/config.py line 24). -/
def file_extension : Str :=
  str (r".log")

/-- `FileReader.read_file` (file_reader.py lines 81-118): try each encoding in
order, return a `FileInfo` for the first that succeeds, `none` if all fail. -/
def read_file (encodings : List Str) (f : SrcFile) : Option FileInfo :=
  match encodings with
  | [] => none
  | e :: rest =>
    match f.decode e with
    | some lines =>
        some { filename := f.filename, filepath := f.filepath, lines := lines,
               encoding := e, line_count := lines.length }
    | none => read_file rest f

/-- The per-file loop of `FileReader.read_all_files` (file_reader.py lines
133-138), over the discovered file list: files whose `read_file` is `None`
are skipped, the rest are kept in order. -/
def read_all_files (encodings : List Str) (files : List SrcFile) : List FileInfo :=
  files.filterMap (fun f => read_file encodings f)

/-- A directory entry, as `Path.iterdir` yields it. -/
structure DirEntry where
  name : Str
  isFile : Bool

/-- `Path.suffix` of a file name (pathlib): the part from the last dot on,
provided that dot is neither the first nor the last character; else empty. -/
def pySuffix (nm : Str) : Str :=
  match nm.reverse.findIdx? (fun c => c == '.') with
  | none => []
  | some irev =>
    let i := nm.length - 1 - irev
    if 0 < i ∧ i < nm.length - 1 then nm.drop i else []

/-- `str.upper()` restricted to ASCII letters (the configured extension is
ASCII, so the comparison in `list_files` only ever succeeds on ASCII). -/
def pyUpper (s : Str) : Str :=
  s.map Char.toUpper

/-- `FileReader.list_files` (file_reader.py lines 51-79): keep the regular
files whose uppercased suffix equals the uppercased configured extension and
sort them (Python `list.sort` on paths of one directory = by name). -/
def list_files (entries : List DirEntry) (ext : Str) : List Str :=
  List.insertionSort (fun a b => strLeB a b = true)
    ((entries.filter
        (fun e => e.isFile && (pyUpper (pySuffix e.name) == pyUpper ext))).map
      (fun e => e.name))

end FileReader

namespace DatabaseLoader

open LogParser

/-- A row of the `etl_statistics` table as built by
`DatabaseLoader.save_etl_statistics` (src/load/database.py lines 164-175). -/
structure StatRow where
  total_files : Nat
  total_records : Nat
  cfn_count : Nat
  ok_count : Nat
  ack_count : Nat
  period_start : Option Nat
  period_end : Option Nat
  execution_time_seconds : Nat
  status : Str
deriving DecidableEq

/-- The storage state the loader touches: the two tables plus the ORM
session's pending (added but not yet committed) statistics rows. -/
structure DBState where
  alarm_logs : List AlarmRecord
  etl_statistics : List StatRow
  pending_stats : List StatRow
deriving DecidableEq

/-- Python `dict.get(k, 0)` on a counts dict. -/
def lookupD (m : List (Str × Nat)) (k : Str) : Nat :=
  match m.find? (fun p => p.1 == k) with
  | some p => p.2
  | none => 0

/-- `session.add(etl_stat)`: the row becomes pending in the session. -/
def session_add (s : DBState) (row : StatRow) : DBState :=
  { s with pending_stats := s.pending_stats ++ [row] }

/-- `session.commit()`: all pending rows are flushed to the table. -/
def session_commit (s : DBState) : DBState :=
  { s with etl_statistics := s.etl_statistics ++ s.pending_stats, pending_stats := [] }

/-- `session.rollback()`: pending rows are discarded, tables untouched. -/
def session_rollback (s : DBState) : DBState :=
  { s with pending_stats := [] }

/-- The `ETLStatistics(...)` constructor call inside `save_etl_statistics`
(database.py lines 165-175): every field is read with a zero/None default. -/
def build_stat_row (stats : StatsDict) (execution_time : Nat) (status : Str) : StatRow :=
  { total_files := stats.total_files.getD 0
    total_records := stats.total_records.getD 0
    cfn_count := lookupD (stats.records_by_type.getD []) (str (r"CFN"))
    ok_count := lookupD (stats.records_by_type.getD []) (str (r"OK"))
    ack_count := lookupD (stats.records_by_type.getD []) (str (r"ACK"))
    period_start := stats.period_start
    period_end := stats.period_end
    execution_time_seconds := execution_time
    status := status }

/-- `DatabaseLoader.save_etl_statistics` (database.py lines 151-186).
`commitOk` models whether `session.commit()` succeeds; a SQLite commit fails
atomically, so on failure the table is unchanged and the `except` branch
rolls the session back and returns `False`. -/
def save_etl_statistics (stats : StatsDict) (execution_time : Nat) (status : Str)
    (commitOk : Bool) (s : DBState) : Bool × DBState :=
  let s1 := session_add s (build_stat_row stats execution_time status)
  if commitOk then (true, session_commit s1)
  else (false, session_rollback s1)

/-- `DatabaseLoader.load_dataframe` (database.py lines 103-149) on the
`alarm_logs` table in the default `append` mode, successful-write case: an
empty DataFrame is reported with `return False` before anything is written;
otherwise the rows are appended and `True` is returned.  (`created_at` and
the batched `to_sql` chunking do not affect which rows end up appended.) -/
def load_dataframe (df : List AlarmRecord) (s : DBState) : Bool × DBState :=
  if df.isEmpty then (false, s)
  else (true, { s with alarm_logs := s.alarm_logs ++ df })

end DatabaseLoader

/-! Concrete inputs used to instantiate the theorems below. -/

/-- A database state with empty tables and a clean session. -/
def dbEmpty : DatabaseLoader.DBState :=
  { alarm_logs := [], etl_statistics := [], pending_stats := [] }

/-- A line that passes the pre-filter (it contains `acknowledged`), matches
`PATTERN_FULL` but not `PATTERN_ACK` (no `ALARM is`), and contains none of
the three `determine_type` markers (`ALARM is acknowledged`, `CFN`, `OK`). -/
def naLine : Str :=
  str (r"2025-10-05 07:12:33,4 [PC510A00] FMDOS01 acknowledged x")

/-- The all-empty record, used only as the default of `Option.getD`. -/
def noRec : LogParser.AlarmRecord :=
  { arquivo_origem := [], timestamp := [], datetime := none, pc_id := [],
    alarm := [], type := [], linha_original := [] }

/-- The input line of end-to-end scenario 1 of the specification. -/
def scenario1Line : Str :=
  str (r"2025-10-05 07:12:33,4 [PC510A00] FMDOS01 CFN ALARM Erro dosagem")

/-- An acknowledgment-shaped line that also contains the confirmation marker
substring `CFN` (in the acknowledging actor). -/
def ackCfnLine : Str :=
  str (r"2025-10-05 07:14:01,0 [PC510A00] FMDOS01 ALARM is acknowledged by CFN1::FORM ACK")

/-- Sample directory listing: two matching files in either letter case, a
non-matching extension, and a directory entry. -/
def sampleDir : List FileReader.DirEntry :=
  [ { name := str (r"b.log"), isFile := true },
    { name := str (r"A.LOG"), isFile := true },
    { name := str (r"c.txt"), isFile := true },
    { name := str (r"d.log"), isFile := false } ]

/-- A file none of whose decode attempts succeeds. -/
def badFile : FileReader.SrcFile :=
  { filename := str (r"bad.log"), filepath := str (r"bad.log"),
    decode := fun _ => none }

/-- A file that decodes with the first candidate encoding. -/
def goodFile1 : FileReader.SrcFile :=
  { filename := str (r"good1.log"), filepath := str (r"good1.log"),
    decode := fun _ => some [scenario1Line] }

/-- A file that decodes only with the second candidate encoding. -/
def goodFile2 : FileReader.SrcFile :=
  { filename := str (r"good2.log"), filepath := str (r"good2.log"),
    decode := fun e => if e == str (r"latin-1") then some [naLine] else none }

/-- Three parsed records of one device/alarm group, deliberately out of
chronological order, plus one record of another group. -/
def sampleDf : List LogParser.AlarmRecord :=
  [ { arquivo_origem := str (r"a.log"), timestamp := [], datetime := some 30,
      pc_id := str (r"PC1"), alarm := str (r"AL1"), type := str (r"CFN"),
      linha_original := [] },
    { arquivo_origem := str (r"a.log"), timestamp := [], datetime := none,
      pc_id := str (r"PC1"), alarm := str (r"AL1"), type := str (r"OK"),
      linha_original := [] },
    { arquivo_origem := str (r"a.log"), timestamp := [], datetime := some 10,
      pc_id := str (r"PC1"), alarm := str (r"AL1"), type := str (r"ACK"),
      linha_original := [] },
    { arquivo_origem := str (r"b.log"), timestamp := [], datetime := some 20,
      pc_id := str (r"PC0"), alarm := str (r"AL2"), type := str (r"CFN"),
      linha_original := [] } ]

/-! ### Helper lemmas about the string utilities -/

theorem leadsWith_iff (p : Str) : ∀ s : Str, leadsWith p s = true ↔ p <+: s := by
  induction p with
  | nil => intro s; simp [leadsWith]
  | cons a as ih =>
    intro s
    cases s with
    | nil => simp [leadsWith]
    | cons b bs =>
      rw [show leadsWith (a :: as) (b :: bs) = ((a == b) && leadsWith as bs) from rfl,
        Bool.and_eq_true, beq_iff_eq, ih bs, List.cons_prefix_cons]

theorem pyIn_of_infix {n h : Str} (hinf : n <:+: h) : pyIn n h = true := by
  induction h with
  | nil =>
    rw [List.infix_nil] at hinf
    subst hinf
    rfl
  | cons c rest ih =>
    rw [pyIn]
    rcases List.infix_cons_iff.mp hinf with hp | hi
    · simp [leadsWith_iff _ _ |>.mpr hp]
    · simp [ih hi]

theorem pyStrip_within (s : Str) : pyStrip s <:+: s := by
  have h1 : s.dropWhile pyIsSpace <:+ s := List.dropWhile_suffix _
  have h2 : (s.dropWhile pyIsSpace).reverse.dropWhile pyIsSpace <:+
      (s.dropWhile pyIsSpace).reverse := List.dropWhile_suffix _
  have h3 : ((s.dropWhile pyIsSpace).reverse.dropWhile pyIsSpace).reverse <+:
      s.dropWhile pyIsSpace := List.reverse_suffix.mp (by simpa using h2)
  exact List.IsInfix.trans h3.isInfix h1.isInfix

/-! ### Claim C2 -/

/-- Claim C2, counterexample: the claim says an empty event collection makes
`DatabaseLoader.load_dataframe` report "a no-op success, not a failure", but
the code hits `if df.empty: ... return False` — the same value its contract
(`Returns: True se sucesso, False se erro`) uses for failure. -/
theorem load_dataframe_empty_not_success :
    ¬ ((DatabaseLoader.load_dataframe [] dbEmpty).1 = true) := by
  decide

/-- Claim C2, amended: if the event collection is empty,
`DatabaseLoader.load_dataframe` performs no storage writes (the state is
unchanged) but returns `False`, the failure indicator, rather than a
success. -/
theorem load_dataframe_empty_noop :
    ∀ s : DatabaseLoader.DBState, DatabaseLoader.load_dataframe [] s = (false, s) :=
  fun _ => rfl

/-! ### Claim C4 -/

/-- Claim C4, counterexample: the claim says an empty input yields a
statistics record whose counts are all zero; in fact
`LogParser.get_statistics` returns the empty dict `{}`, so the counts are
absent (`none`), not zero. -/
theorem get_statistics_empty_not_zero :
    ¬ ((LogParser.get_statistics []).total_records = some 0 ∧
       (LogParser.get_statistics []).unique_alarms = some 0 ∧
       (LogParser.get_statistics []).unique_pc_ids = some 0 ∧
       (LogParser.get_statistics []).records_by_type = some []) := by
  decide

/-- Claim C4, amended: for an empty input collection the Consolidator
(`LogParser.parse_multiple_files`, whatever sorting the library applies)
returns an empty output collection, and `LogParser.get_statistics` returns
the empty statistics dict (every field absent, rather than present with
value zero); neither raises an error. -/
theorem consolidator_empty_input :
    (∀ sortAlg, LogParser.parse_multiple_files sortAlg [] = []) ∧
    LogParser.get_statistics [] = ({} : LogParser.StatsDict) :=
  ⟨fun _ => rfl, rfl⟩

/-- Claim C4, witness for the amended statement, instantiated at the
identity sorting. -/
theorem consolidator_empty_input_witness :
    LogParser.parse_multiple_files id [] = [] :=
  consolidator_empty_input.1 id

/-! ### Claim C6 -/

/-- Claim C6: parsing the single line
`2025-10-05 07:12:33,4 [PC510A00] FMDOS01 CFN ALARM Erro dosagem` yields
exactly one AlarmEvent, with stage `CFN`, device `PC510A00`, alarm code
`FMDOS01`. -/
theorem scenario1_cfn_event :
    (LogParser.parse_file [scenario1Line] (str (r"a.log"))).map
        (fun rec => (rec.type, rec.pc_id, rec.alarm)) =
      [(str (r"CFN"), str (r"PC510A00"), str (r"FMDOS01"))] := by
  decide

/-! ### Claim C10 -/

/-- Claim C10: on a failed commit, `DatabaseLoader.save_etl_statistics`
rolls back the pending insert and returns `False` with the statistics table
unchanged; on success it returns `True` having appended exactly the one new
row.  (`s.pending_stats = []` says the ORM session starts with nothing else
pending, which is how `DatabaseLoader` uses its session.) -/
theorem save_etl_statistics_atomic (stats : LogParser.StatsDict) (t : Nat)
    (status : Str) (s : DatabaseLoader.DBState) (h : s.pending_stats = []) :
    DatabaseLoader.save_etl_statistics stats t status false s = (false, s) ∧
    DatabaseLoader.save_etl_statistics stats t status true s =
      (true, { s with
                 etl_statistics :=
                   s.etl_statistics ++ [DatabaseLoader.build_stat_row stats t status],
                 pending_stats := [] }) := by
  obtain ⟨al, et, pd⟩ := s
  dsimp only at h
  subst h
  exact ⟨rfl, rfl⟩

/-- Claim C10, witness: the theorem instantiated at the empty statistics
dict and the empty database state. -/
theorem save_etl_statistics_atomic_witness :
    DatabaseLoader.save_etl_statistics {} 0 (str (r"success")) false dbEmpty =
      (false, dbEmpty) ∧
    DatabaseLoader.save_etl_statistics {} 0 (str (r"success")) true dbEmpty =
      (true, { dbEmpty with
                 etl_statistics := dbEmpty.etl_statistics ++
                   [DatabaseLoader.build_stat_row {} 0 (str (r"success"))],
                 pending_stats := [] }) :=
  save_etl_statistics_atomic {} 0 (str (r"success")) dbEmpty rfl

/-! ### Claim C8 -/

/-- Claim C8: if no candidate encoding decodes a file, `FileReader.read_file`
yields no `FileInfo` for it, and the `read_all_files` loop still returns the
results of all remaining files — one undecodable file never fails the run. -/
theorem undecodable_file_skipped (encodings : List Str) (f : FileReader.SrcFile)
    (xs ys : List FileReader.SrcFile)
    (h : ∀ e ∈ encodings, f.decode e = none) :
    FileReader.read_file encodings f = none ∧
    FileReader.read_all_files encodings (xs ++ f :: ys) =
      FileReader.read_all_files encodings xs ++ FileReader.read_all_files encodings ys := by
  have hf : FileReader.read_file encodings f = none := by
    induction encodings with
    | nil => rfl
    | cons e rest ih =>
      have hd : f.decode e = none := h e (by simp)
      have hrest : FileReader.read_file rest f = none :=
        ih (fun e2 he2 => h e2 (by simp [he2]))
      simp [FileReader.read_file, hd, hrest]
  refine ⟨hf, ?_⟩
  simp [FileReader.read_all_files, List.filterMap_append, List.filterMap_cons, hf]

/-- Claim C8, witness: with the configured encoding list, a file whose every
decode attempt fails is skipped while its neighbours are still processed. -/
theorem undecodable_file_skipped_witness :
    FileReader.read_file FileReader.encodings_to_try badFile = none ∧
    FileReader.read_all_files FileReader.encodings_to_try
        ([goodFile1] ++ badFile :: [goodFile2]) =
      FileReader.read_all_files FileReader.encodings_to_try [goodFile1] ++
        FileReader.read_all_files FileReader.encodings_to_try [goodFile2] :=
  undecodable_file_skipped FileReader.encodings_to_try badFile [goodFile1] [goodFile2]
    (fun _ _ => rfl)

/-! ### Order lemmas for Python string comparison -/

theorem strLtB_irrefl (a : Str) : strLtB a a = false := by
  induction a with
  | nil => rfl
  | cons c cs ih => simp [strLtB, lt_irrefl, ih]

theorem strLtB_asymm : ∀ {a b : Str}, strLtB a b = true → strLtB b a = false := by
  intro a
  induction a with
  | nil =>
    intro b h
    cases b with
    | nil => exact absurd h (by simp [strLtB])
    | cons d ds => rfl
  | cons c cs ih =>
    intro b h
    cases b with
    | nil => simp [strLtB] at h
    | cons d ds =>
      simp only [strLtB] at h ⊢
      by_cases h1 : c < d
      · have h2 : ¬ d < c := lt_asymm h1
        simp [h1, h2]
      · by_cases h2 : d < c
        · simp [h1, h2] at h
        · simp only [h1, h2, if_false] at h ⊢
          exact ih h

theorem strLtB_conn : ∀ {a b : Str}, strLtB a b = false → strLtB b a = false → a = b := by
  intro a
  induction a with
  | nil =>
    intro b h1 _
    cases b with
    | nil => rfl
    | cons d ds => simp [strLtB] at h1
  | cons c cs ih =>
    intro b h1 h2
    cases b with
    | nil => simp [strLtB] at h2
    | cons d ds =>
      simp only [strLtB] at h1 h2
      by_cases hcd : c < d
      · simp [hcd] at h1
      · by_cases hdc : d < c
        · simp [hdc, hcd] at h2
        · have hce : c = d := le_antisymm (not_lt.mp hdc) (not_lt.mp hcd)
          simp only [if_neg hcd, if_neg hdc] at h1 h2
          rw [hce, ih h1 h2]

theorem strLtB_trans : ∀ {a b c : Str},
    strLtB a b = true → strLtB b c = true → strLtB a c = true := by
  intro a
  induction a with
  | nil =>
    intro b c h1 h2
    cases b with
    | nil => simp [strLtB] at h1
    | cons d ds =>
      cases c with
      | nil => simp [strLtB] at h2
      | cons e es => rfl
  | cons x xs ih =>
    intro b c h1 h2
    cases b with
    | nil => simp [strLtB] at h1
    | cons y ys =>
      cases c with
      | nil => simp [strLtB] at h2
      | cons z zs =>
        simp only [strLtB] at h1 h2 ⊢
        by_cases hxy : x < y
        · by_cases hyz : y < z
          · simp [lt_trans hxy hyz]
          · by_cases hzy : z < y
            · simp [hyz, hzy] at h2
            · have : y = z := le_antisymm (not_lt.mp hzy) (not_lt.mp hyz)
              subst this
              simp [hxy]
        · by_cases hyx : y < x
          · simp [hxy, hyx] at h1
          · have hce : x = y := le_antisymm (not_lt.mp hyx) (not_lt.mp hxy)
            subst hce
            simp only [hxy, hyx, if_false] at h1
            by_cases hyz : x < z
            · simp [hyz]
            · by_cases hzy : z < x
              · simp [hyz, hzy] at h2
              · simp only [hyz, hzy, if_false] at h2 ⊢
                exact ih h1 h2

theorem strLeB_total (a b : Str) : strLeB a b = true ∨ strLeB b a = true := by
  by_cases h : strLtB b a = true
  · right
    simp [strLeB, strLtB_asymm h]
  · left
    simp [strLeB]
    exact Bool.not_eq_true _ |>.mp h

theorem strLeB_trans : ∀ {a b c : Str},
    strLeB a b = true → strLeB b c = true → strLeB a c = true := by
  intro a b c h1 h2
  simp only [strLeB, Bool.not_eq_true'] at h1 h2 ⊢
  cases hbc : strLtB c b with
  | true => rw [hbc] at h2; exact absurd h2 (by simp)
  | false =>
    cases hcb : strLtB b c with
    | false =>
      have : b = c := strLtB_conn hcb hbc
      subst this
      exact h1
    | true =>
      cases hca : strLtB c a with
      | false => rfl
      | true =>
        have : strLtB b a = true := strLtB_trans hcb hca
        rw [this] at h1
        exact absurd h1 (by simp)

instance strNameTotal : IsTotal Str (fun a b => strLeB a b = true) :=
  ⟨strLeB_total⟩

instance strNameTrans : IsTrans Str (fun a b => strLeB a b = true) :=
  ⟨fun _ _ _ => strLeB_trans⟩

/-! ### Claim C9 -/

/-- Claim C9: `FileReader.list_files` returns a sorted list containing
exactly the names of the regular files whose suffix, uppercased, equals the
uppercased configured extension (so `.log` and `.LOG` files are both
selected for the `.log` filter). -/
theorem list_files_spec (entries : List FileReader.DirEntry) (ext : Str) :
    List.Sorted (fun a b => strLeB a b = true) (FileReader.list_files entries ext) ∧
    ∀ nm : Str, nm ∈ FileReader.list_files entries ext ↔
      ∃ e ∈ entries, e.name = nm ∧ e.isFile = true ∧
        FileReader.pyUpper (FileReader.pySuffix nm) = FileReader.pyUpper ext := by
  constructor
  · exact List.sorted_insertionSort _ _
  · intro nm
    simp only [FileReader.list_files, List.mem_insertionSort, List.mem_map,
      List.mem_filter, Bool.and_eq_true, beq_iff_eq]
    constructor
    · rintro ⟨e, ⟨he, hf, hs⟩, rfl⟩
      exact ⟨e, he, rfl, hf, hs⟩
    · rintro ⟨e, he, rfl, hf, hs⟩
      exact ⟨e, ⟨he, hf, hs⟩, rfl⟩

/-- Claim C9, witness: in the sample directory, both `A.LOG` and `b.log` are
selected for the `.log` filter and the `.txt` file is not. -/
theorem list_files_spec_witness :
    str (r"A.LOG") ∈ FileReader.list_files sampleDir FileReader.file_extension ∧
    str (r"b.log") ∈ FileReader.list_files sampleDir FileReader.file_extension ∧
    ¬ (str (r"c.txt") ∈ FileReader.list_files sampleDir FileReader.file_extension) :=
  ⟨((list_files_spec sampleDir FileReader.file_extension).2 _).mpr (by decide),
   ((list_files_spec sampleDir FileReader.file_extension).2 _).mpr (by decide),
   fun hmem =>
     absurd (((list_files_spec sampleDir FileReader.file_extension).2 _).mp hmem)
       (by decide)⟩

/-! ### Order lemmas for the sequence-grouping key -/

theorem dtLeB_total (a b : Option Nat) :
    LogParser.dtLeB a b = true ∨ LogParser.dtLeB b a = true := by
  cases a with
  | none => cases b with
    | none => exact Or.inl rfl
    | some y => exact Or.inr rfl
  | some x => cases b with
    | none => exact Or.inl rfl
    | some y =>
      simp only [LogParser.dtLeB, decide_eq_true_eq]
      exact Nat.le_total x y

theorem dtLeB_trans : ∀ {a b c : Option Nat},
    LogParser.dtLeB a b = true → LogParser.dtLeB b c = true → LogParser.dtLeB a c = true := by
  intro a b c h1 h2
  cases a with
  | none =>
    cases b with
    | none => exact h2
    | some y => exact absurd h1 (by simp [LogParser.dtLeB])
  | some x =>
    cases c with
    | none => rfl
    | some z =>
      cases b with
      | none => exact absurd h2 (by simp [LogParser.dtLeB])
      | some y =>
        simp only [LogParser.dtLeB, decide_eq_true_eq] at h1 h2 ⊢
        exact Nat.le_trans h1 h2

theorem leKey_iff (a b : LogParser.AlarmRecord) :
    LogParser.leKey a b = true ↔
      strLtB a.pc_id b.pc_id = true ∨
      (a.pc_id = b.pc_id ∧
        (strLtB a.alarm b.alarm = true ∨
          (a.alarm = b.alarm ∧ LogParser.dtLeB a.datetime b.datetime = true))) := by
  unfold LogParser.leKey
  by_cases h1 : strLtB a.pc_id b.pc_id = true
  · simp [h1]
  · have h1f : strLtB a.pc_id b.pc_id = false := Bool.not_eq_true _ |>.mp h1
    by_cases h2 : strLtB b.pc_id a.pc_id = true
    · simp only [h1f, h2, if_true, if_false, Bool.false_eq_true, false_iff]
      rintro (hl | ⟨hpc, _⟩)
      · exact hl.elim
      · rw [hpc] at h2
        rw [strLtB_irrefl] at h2
        exact absurd h2 (by simp)
    · have h2f : strLtB b.pc_id a.pc_id = false := Bool.not_eq_true _ |>.mp h2
      have hpc : a.pc_id = b.pc_id := strLtB_conn h1f h2f
      simp only [h1f, h2f, if_false, Bool.false_eq_true]
      by_cases h3 : strLtB a.alarm b.alarm = true
      · simp [h3, hpc]
      · have h3f : strLtB a.alarm b.alarm = false := Bool.not_eq_true _ |>.mp h3
        by_cases h4 : strLtB b.alarm a.alarm = true
        · simp only [h3f, h4, if_true, if_false, Bool.false_eq_true, false_iff]
          rintro (hl | ⟨_, hl | ⟨hal, _⟩⟩)
          · exact hl.elim
          · exact hl.elim
          · rw [hal] at h4
            rw [strLtB_irrefl] at h4
            exact absurd h4 (by simp)
        · have h4f : strLtB b.alarm a.alarm = false := Bool.not_eq_true _ |>.mp h4
          have hal : a.alarm = b.alarm := strLtB_conn h3f h4f
          simp only [h3f, h4f, if_false, Bool.false_eq_true]
          constructor
          · intro hd
            exact Or.inr ⟨hpc, Or.inr ⟨hal, hd⟩⟩
          · rintro (hl | ⟨_, hl | ⟨_, hd⟩⟩)
            · exact hl.elim
            · exact hl.elim
            · exact hd

theorem leKey_total (a b : LogParser.AlarmRecord) :
    LogParser.leKey a b = true ∨ LogParser.leKey b a = true := by
  by_cases h1 : strLtB a.pc_id b.pc_id = true
  · exact Or.inl ((leKey_iff a b).mpr (Or.inl h1))
  · by_cases h2 : strLtB b.pc_id a.pc_id = true
    · exact Or.inr ((leKey_iff b a).mpr (Or.inl h2))
    · have hpc : a.pc_id = b.pc_id :=
        strLtB_conn (Bool.not_eq_true _ |>.mp h1) (Bool.not_eq_true _ |>.mp h2)
      by_cases h3 : strLtB a.alarm b.alarm = true
      · exact Or.inl ((leKey_iff a b).mpr (Or.inr ⟨hpc, Or.inl h3⟩))
      · by_cases h4 : strLtB b.alarm a.alarm = true
        · exact Or.inr ((leKey_iff b a).mpr (Or.inr ⟨hpc.symm, Or.inl h4⟩))
        · have hal : a.alarm = b.alarm :=
            strLtB_conn (Bool.not_eq_true _ |>.mp h3) (Bool.not_eq_true _ |>.mp h4)
          rcases dtLeB_total a.datetime b.datetime with hd | hd
          · exact Or.inl ((leKey_iff a b).mpr (Or.inr ⟨hpc, Or.inr ⟨hal, hd⟩⟩))
          · exact Or.inr ((leKey_iff b a).mpr (Or.inr ⟨hpc.symm, Or.inr ⟨hal.symm, hd⟩⟩))

theorem leKey_trans {a b c : LogParser.AlarmRecord}
    (h1 : LogParser.leKey a b = true) (h2 : LogParser.leKey b c = true) :
    LogParser.leKey a c = true := by
  rcases (leKey_iff a b).mp h1 with hp1 | ⟨he1, hi1⟩
  · rcases (leKey_iff b c).mp h2 with hp2 | ⟨he2, _⟩
    · exact (leKey_iff a c).mpr (Or.inl (strLtB_trans hp1 hp2))
    · exact (leKey_iff a c).mpr (Or.inl (he2 ▸ hp1))
  · rcases (leKey_iff b c).mp h2 with hp2 | ⟨he2, hi2⟩
    · exact (leKey_iff a c).mpr (Or.inl (he1 ▸ hp2))
    · refine (leKey_iff a c).mpr (Or.inr ⟨he1.trans he2, ?_⟩)
      rcases hi1 with ha1 | ⟨hae1, hd1⟩
      · rcases hi2 with ha2 | ⟨hae2, _⟩
        · exact Or.inl (strLtB_trans ha1 ha2)
        · exact Or.inl (hae2 ▸ ha1)
      · rcases hi2 with ha2 | ⟨hae2, hd2⟩
        · exact Or.inl (hae1 ▸ ha2)
        · exact Or.inr ⟨hae1.trans hae2, dtLeB_trans hd1 hd2⟩

instance leKeyTotal : IsTotal LogParser.AlarmRecord (fun a b => LogParser.leKey a b = true) :=
  ⟨leKey_total⟩

instance leKeyTrans : IsTrans LogParser.AlarmRecord (fun a b => LogParser.leKey a b = true) :=
  ⟨fun _ _ _ => leKey_trans⟩

/-! ### Claim C7 -/

/-- Claim C7: sequence grouping is a pure reordering — the output is a
permutation of the input of equal length, and any two output positions `i < j`
holding the same `(pc_id, alarm)` are non-decreasing in datetime, with
absent-datetime entries trailing their group (`dtLeB` never lets a `none`
precede a `some` within the group). -/
theorem group_alarm_sequences_spec (df : List LogParser.AlarmRecord) :
    (LogParser.group_alarm_sequences df).Perm df ∧
    (LogParser.group_alarm_sequences df).length = df.length ∧
    (LogParser.group_alarm_sequences df).Pairwise
      (fun a b => a.pc_id = b.pc_id → a.alarm = b.alarm →
         LogParser.dtLeB a.datetime b.datetime = true) := by
  have hperm : (LogParser.group_alarm_sequences df).Perm df := by
    unfold LogParser.group_alarm_sequences
    split
    · exact List.Perm.refl _
    · exact List.perm_insertionSort _ _
  refine ⟨hperm, hperm.length_eq, ?_⟩
  unfold LogParser.group_alarm_sequences
  split
  · rename_i hemp
    rw [List.isEmpty_iff.mp hemp]
    exact List.Pairwise.nil
  · have hs := List.sorted_insertionSort (fun a b => LogParser.leKey a b = true) df
    refine List.Pairwise.imp ?_ hs
    intro a b hab
    intro hpc hal
    rcases (leKey_iff a b).mp hab with h | ⟨_, h | ⟨_, h⟩⟩
    · rw [hpc, strLtB_irrefl] at h
      exact absurd h (by simp)
    · rw [hal, strLtB_irrefl] at h
      exact absurd h (by simp)
    · exact h

/-- Claim C7, witness: the spec instantiated at the concrete sample group. -/
theorem group_alarm_sequences_spec_witness :
    (LogParser.group_alarm_sequences sampleDf).Perm sampleDf ∧
    (LogParser.group_alarm_sequences sampleDf).length = sampleDf.length :=
  ⟨(group_alarm_sequences_spec sampleDf).1, (group_alarm_sequences_spec sampleDf).2.1⟩

/-! ### Claim C1 -/

theorem determine_type_mem (s : Str) :
    LogParser.determine_type s = str (r"ACK") ∨ LogParser.determine_type s = str (r"CFN") ∨
    LogParser.determine_type s = str (r"OK") ∨ LogParser.determine_type s = str (r"N/A") := by
  unfold LogParser.determine_type
  split
  · exact Or.inl rfl
  · split
    · exact Or.inr (Or.inl rfl)
    · split
      · exact Or.inr (Or.inr (Or.inl rfl))
      · exact Or.inr (Or.inr (Or.inr rfl))

/-- Claim C1, counterexample: `naLine` passes the pre-filter (it contains
`acknowledged`), matches only the general pattern, and contains none of the
three `determine_type` markers, so the produced event's stage is `N/A` —
which is not one of the recognized lifecycle values ACK/CFN/OK the claim
allows. -/
theorem parse_line_na_counterexample :
    (LogParser.parse_line naLine (str (r"a.log"))).map (fun rec => rec.type) =
      some (str (r"N/A")) ∧
    ¬ (str (r"N/A") ∈ [str (r"ACK"), str (r"CFN"), str (r"OK")]) := by
  decide

/-- Claim C1, amended: every event produced by `LogParser.parse_line` has a
stage drawn from the closed set `ACK`, `CFN`, `OK`, `N/A` (the four values of
`determine_type`), and a line matching neither recognized shape produces no
event at all. -/
theorem parse_line_stage_amended :
    (∀ line source_file rec, LogParser.parse_line line source_file = some rec →
       rec.type = str (r"ACK") ∨ rec.type = str (r"CFN") ∨ rec.type = str (r"OK") ∨
       rec.type = str (r"N/A")) ∧
    (∀ line source_file, LogParser.matchAck (pyStrip line) = none →
       LogParser.matchFull (pyStrip line) = none →
       LogParser.parse_line line source_file = none) := by
  constructor
  · intro line source_file rec h
    unfold LogParser.parse_line at h
    dsimp only at h
    split at h
    · split at h
      · rename_i ts pc al heq
        simp only [Option.some.injEq] at h
        subst h
        exact Or.inl rfl
      · split at h
        · rename_i ts pc al heq
          simp only [Option.some.injEq] at h
          subst h
          exact determine_type_mem (pyStrip line)
        · exact absurd h (by simp)
    · exact absurd h (by simp)
  · intro line source_file h1 h2
    unfold LogParser.parse_line
    split
    · simp only [h1, h2]
    · rfl

/-- Claim C1, witness for the amended statement: both halves instantiated at
concrete lines. -/
theorem parse_line_stage_amended_witness :
    (((LogParser.parse_line naLine (str (r"a.log"))).getD noRec).type = str (r"ACK") ∨
     ((LogParser.parse_line naLine (str (r"a.log"))).getD noRec).type = str (r"CFN") ∨
     ((LogParser.parse_line naLine (str (r"a.log"))).getD noRec).type = str (r"OK") ∨
     ((LogParser.parse_line naLine (str (r"a.log"))).getD noRec).type = str (r"N/A")) ∧
    LogParser.parse_line (str (r"no CFN pattern here")) (str (r"a.log")) = none :=
  ⟨parse_line_stage_amended.1 naLine (str (r"a.log")) _ (by decide),
   parse_line_stage_amended.2 (str (r"no CFN pattern here")) (str (r"a.log"))
     (by decide) (by decide)⟩

/-! ### Claim C5 -/

theorem litM_eq {l s t : Str} (h : litM l s = some t) : s = l ++ t := by
  unfold litM at h
  split at h
  · rename_i hp
    have hpre := (leadsWith_iff l s).mp hp
    simp only [Option.some.injEq] at h
    subst h
    obtain ⟨t2, rfl⟩ := hpre
    simp
  · exact absurd h (by simp)

theorem litM_suffix {l s t : Str} (h : litM l s = some t) : t <:+ s := by
  rw [litM_eq h]
  exact List.suffix_append l t

theorem digitsExact_suffix {n : Nat} {s t rest : Str}
    (h : digitsExact n s = some (t, rest)) : rest <:+ s := by
  simp only [digitsExact] at h
  split at h
  · simp only [Option.some.injEq, Prod.mk.injEq] at h
    rw [← h.2]
    exact List.drop_suffix n s
  · exact absurd h (by simp)

theorem ws1_suffix {s w rest : Str} (h : ws1 s = some (w, rest)) : rest <:+ s := by
  simp only [ws1] at h
  split at h
  · exact absurd h (by simp)
  · simp only [Option.some.injEq, Prod.mk.injEq] at h
    rw [← h.2]
    exact List.dropWhile_suffix pyIsSpace

theorem digits1_suffix {s t rest : Str} (h : digits1 s = some (t, rest)) : rest <:+ s := by
  simp only [digits1] at h
  split at h
  · exact absurd h (by simp)
  · simp only [Option.some.injEq, Prod.mk.injEq] at h
    rw [← h.2]
    exact List.dropWhile_suffix Char.isDigit

theorem matchTimestamp_suffix : ∀ {s ts rest : Str},
    LogParser.matchTimestamp s = some (ts, rest) → rest <:+ s := by
  intro s ts rest h
  unfold LogParser.matchTimestamp at h
  split at h
  · simp at h
  rename_i y r1 heq1
  split at h
  · simp at h
  rename_i r2 heq2
  split at h
  · simp at h
  rename_i mo r3 heq3
  split at h
  · simp at h
  rename_i r4 heq4
  split at h
  · simp at h
  rename_i d r5 heq5
  split at h
  · simp at h
  rename_i w r6 heq6
  split at h
  · simp at h
  rename_i hh r7 heq7
  split at h
  · simp at h
  rename_i r8 heq8
  split at h
  · simp at h
  rename_i mi r9 heq9
  split at h
  · simp at h
  rename_i r10 heq10
  split at h
  · simp at h
  rename_i ss r11 heq11
  split at h
  · simp at h
  rename_i r12 heq12
  split at h
  · simp at h
  rename_i fr r13 heq13
  simp only [Option.some.injEq, Prod.mk.injEq] at h
  rw [← h.2]
  exact (digits1_suffix heq13).trans ((litM_suffix heq12).trans
    ((digitsExact_suffix heq11).trans ((litM_suffix heq10).trans
    ((digitsExact_suffix heq9).trans ((litM_suffix heq8).trans
    ((digitsExact_suffix heq7).trans ((ws1_suffix heq6).trans
    ((digitsExact_suffix heq5).trans ((litM_suffix heq4).trans
    ((digitsExact_suffix heq3).trans ((litM_suffix heq2).trans
    (digitsExact_suffix heq1))))))))))))

theorem matchCommon_suffix : ∀ {s ts dev tok rest : Str},
    LogParser.matchCommon s = some (ts, dev, tok, rest) → rest <:+ s := by
  intro s ts dev tok rest h
  unfold LogParser.matchCommon at h
  dsimp only at h
  split at h
  · simp at h
  rename_i ts2 r0 heq0
  split at h
  · simp at h
  rename_i w1 r1 heq1
  split at h
  · simp at h
  rename_i r2 heq2
  split at h
  · simp at h
  split at h
  · simp at h
  rename_i r3 heq3
  split at h
  · simp at h
  rename_i w2 r4 heq4
  split at h
  · simp at h
  simp only [Option.some.injEq, Prod.mk.injEq] at h
  rw [← h.2.2.2]
  have k4 : r4.dropWhile (fun c => !(pyIsSpace c)) <:+ r4 := List.dropWhile_suffix _
  have k2b : r2.dropWhile (fun c => !(c == ']')) <:+ r2 := List.dropWhile_suffix _
  exact k4.trans ((ws1_suffix heq4).trans (((litM_suffix heq3).trans k2b).trans
    ((litM_suffix heq2).trans ((ws1_suffix heq1).trans (matchTimestamp_suffix heq0)))))

theorem matchAck_has_acknowledged : ∀ {s : Str} {g : Str × Str × Str},
    LogParser.matchAck s = some g → (str (r"acknowledged")) <:+: s := by
  intro s g h
  unfold LogParser.matchAck at h
  split at h
  · simp at h
  rename_i ts dev tok r0 heq0
  split at h
  · simp at h
  rename_i w1 r1 heq1
  split at h
  · simp at h
  rename_i r2 heq2
  split at h
  · simp at h
  rename_i w2 r3 heq3
  split at h
  · simp at h
  rename_i r4 heq4
  split at h
  · simp at h
  rename_i w3 r5 heq5
  split at h
  · simp at h
  rename_i r6 heq6
  have e5 : r5 = str (r"acknowledged") ++ r6 := litM_eq heq6
  have k5 : r5 <:+ s := (ws1_suffix heq5).trans ((litM_suffix heq4).trans
    ((ws1_suffix heq3).trans ((litM_suffix heq2).trans
      ((ws1_suffix heq1).trans (matchCommon_suffix heq0)))))
  obtain ⟨pre, hpre⟩ := k5
  refine ⟨pre, r6, ?_⟩
  rw [← hpre, e5, List.append_assoc]

theorem anyFilterHit_of_matchAck {line : Str} {g : Str × Str × Str}
    (h : LogParser.matchAck (pyStrip line) = some g) :
    LogParser.anyFilterHit line = true := by
  have h2 : (str (r"acknowledged")) <:+: line :=
    (matchAck_has_acknowledged h).trans (pyStrip_within line)
  have h3 : pyIn (str (r"acknowledged")) line = true := pyIn_of_infix h2
  simp [LogParser.anyFilterHit, LogParser.filters, h3]

/-- Claim C5: every line whose stripped form matches the acknowledgment
pattern is parsed by `LogParser.parse_line` into an ACK-staged event — the
acknowledgment pattern is tried first and wins, whatever else the line
contains (in particular a `CFN` marker substring). -/
theorem parse_line_ack_priority (line source_file ts dev al : Str)
    (h : LogParser.matchAck (pyStrip line) = some (ts, dev, al)) :
    LogParser.parse_line line source_file =
      some (LogParser.create_record source_file ts dev al (str (r"ACK")) (pyStrip line)) := by
  unfold LogParser.parse_line
  rw [anyFilterHit_of_matchAck h]
  simp only [if_true]
  rw [h]

/-- Claim C5, witness: the acknowledgment line `ackCfnLine`, which also
contains the confirmation marker substring `CFN`, is classified ACK. -/
theorem parse_line_ack_priority_witness :
    LogParser.parse_line ackCfnLine (str (r"a.log")) =
      some (LogParser.create_record (str (r"a.log")) (str (r"2025-10-05 07:14:01,0"))
        (str (r"PC510A00")) (str (r"FMDOS01")) (str (r"ACK")) (pyStrip ackCfnLine)) :=
  parse_line_ack_priority ackCfnLine (str (r"a.log")) (str (r"2025-10-05 07:14:01,0"))
    (str (r"PC510A00")) (str (r"FMDOS01")) (by decide)
